import Mathlib

/-!
Verification of the daily AmoCRM revenue-report pipeline (`amocrm.py`).

The embedding models:
* a `Deal` as the three JSON fields the code reads (`created_at`,
  `responsible_user_id`, `price`), each possibly absent;
* timestamps as natural numbers of unix seconds, a calendar date as the
  day index `ts / 86400` (the code's `fromtimestamp(..).date()`);
* Python truthiness of a numeric field (`if created_at and
  responsible_user_id:`) as "present and nonzero";
* the `revenue_by_manager` dict as an association list that preserves
  insertion order, exactly like a Python dict: assignment to a new key
  appends, assignment to an existing key updates in place, and `items()`
  iterates in that order;
* the fetch result `data` of `daily_report_revenue` as either `None`,
  a dict-shaped test double carrying a `status_code` entry, or a real
  HTTP response carrying a status code and a body that either parses
  into the `_embedded.leads` list or does not (`KeyError`/`TypeError`);
* `main` as a function from the fetch outcome to the list of messages
  handed to the Telegram channel (`send_to_telegram` swallows every
  delivery failure internally, so delivery never raises back into
  `main`).
-/

/-- Calendar date (day index since the epoch) of a unix timestamp:
`datetime.datetime.fromtimestamp(created_at).date()` in the code. -/
def dateOf (ts : Nat) : Nat := ts / 86400

/-- One CRM deal record, restricted to the three fields the code reads.
`none` models an absent JSON key. -/
structure Deal where
  created_at : Option Nat
  responsible_user_id : Option Nat
  price : Option Int
deriving DecidableEq

/-- The `revenue_by_manager` dict: manager id to accumulated revenue,
in insertion order. -/
def RevMap : Type := List (Nat × Int)

instance : DecidableEq RevMap := by unfold RevMap; infer_instance

/-- Python dict assignment `m[k] = v`: update in place when the key is
present, append otherwise. -/
def setValue (m : RevMap) (k : Nat) (v : Int) : RevMap :=
  match m with
  | [] => [(k, v)]
  | (k₀, v₀) :: rest =>
      if k₀ = k then (k₀, v) :: rest else (k₀, v₀) :: setValue rest k v

/-- Python dict read `m[k]` / membership test, as an association-list
lookup. -/
def getValue (m : RevMap) (k : Nat) : Option Int :=
  match m with
  | [] => none
  | (k₀, v₀) :: rest => if k₀ = k then some v₀ else getValue rest k

/-- The body of the `for deal in deals:` loop of `daily_report_revenue`
(amocrm.py lines 168-180), at a fixed evaluation date `today`:
read the three fields (`price` defaulting to 0), and when `created_at`
and `responsible_user_id` are both truthy and the creation date equals
`today`, create the manager's entry at 0 if absent and add the price. -/
def addDeal (today : Nat) (m : RevMap) (deal : Deal) : RevMap :=
  match deal.created_at, deal.responsible_user_id with
  | some created_at, some responsible_user_id =>
      if created_at ≠ 0 ∧ responsible_user_id ≠ 0 then
        if dateOf created_at = today then
          let m₁ :=
            if getValue m responsible_user_id = none then
              setValue m responsible_user_id 0
            else m
          setValue m₁ responsible_user_id
            ((getValue m₁ responsible_user_id).getD 0 + deal.price.getD 0)
        else m
      else m
  | _, _ => m

/-- The whole aggregation loop of `daily_report_revenue` over the deal
list, starting from the empty dict, at a fixed evaluation date. -/
def aggregate (today : Nat) (deals : List Deal) : RevMap :=
  deals.foldl (addDeal today) []

/-- The loop with the wall clock left explicit: the code evaluates
`datetime.date.today()` anew inside the loop for every deal whose two
fields are truthy, so the state carries the index of the next clock
read and `clock` gives the date returned by each successive read. -/
def addDealClock (clock : Nat → Nat) (st : RevMap × Nat) (deal : Deal) :
    RevMap × Nat :=
  match deal.created_at, deal.responsible_user_id with
  | some created_at, some responsible_user_id =>
      if created_at ≠ 0 ∧ responsible_user_id ≠ 0 then
        let current_date := clock st.2
        if dateOf created_at = current_date then
          let m₁ :=
            if getValue st.1 responsible_user_id = none then
              setValue st.1 responsible_user_id 0
            else st.1
          (setValue m₁ responsible_user_id
            ((getValue m₁ responsible_user_id).getD 0 + deal.price.getD 0),
           st.2 + 1)
        else (st.1, st.2 + 1)
      else st
  | _, _ => st

/-- Aggregation as actually executed, reading the wall clock through
`clock`. -/
def aggregateClock (clock : Nat → Nat) (deals : List Deal) : RevMap :=
  (deals.foldl (addDealClock clock) ([], 0)).1

-- Sanity checks of the embedding against the repository's unit test
-- `test_daily_report_revenue_success`: a deal of today (price 1000,
-- manager 1) and a deal of yesterday (price 1500, manager 2) aggregate
-- to the single entry (1, 1000).
example :
    aggregate 2 [⟨some (2 * 86400 + 100), some 1, some 1000⟩,
                 ⟨some (1 * 86400 + 100), some 2, some 1500⟩] = [(1, 1000)] := by
  decide

example : aggregate 5 [] = [] := by decide

example :
    aggregate 1 [⟨some 90000, some 2, some 5⟩, ⟨some 90000, some 1, some 3⟩]
      = [(2, 5), (1, 3)] := by decide

/-! ## The fetcher and the fetch result -/

/-- The four request-exception classes caught by
`get_leads_from_amocrm` (amocrm.py lines 106-117). -/
inductive ReqError where
  | httpError
  | connectionError
  | timeout
  | requestException
deriving DecidableEq

/-- What `requests.get` hands back inside `get_leads_from_amocrm`, or
what a test double substitutes for the function's result.
`dictData` is a plain-dict result (only test doubles produce one; its
field models `data.get ("status_code")`, `none` when absent); `response`
is a real HTTP response carrying its status code and a body that either
parses into the `_embedded.leads` list (`some deals`) or raises
`KeyError`/`TypeError` when the code extracts it (`none`). -/
inductive FetchData where
  | dictData (status_code : Option Nat)
  | response (status_code : Nat) (body : Option (List Deal))
deriving DecidableEq

/-- Outcome of the one `requests.get` call inside
`get_leads_from_amocrm`: the response it returned, or the request
exception it raised. -/
inductive FetchAttempt where
  | success (r : FetchData)
  | failure (e : ReqError)
deriving DecidableEq

/-- `get_leads_from_amocrm` (amocrm.py lines 104-120): every caught
request exception yields `None`; a received response is returned as is,
its status code never inspected. -/
def get_leads_from_amocrm : FetchAttempt → Option FetchData
  | .success r => some r
  | .failure _ => none

/-! ## daily_report_revenue and main -/

/-- The situation `daily_report_revenue` finds itself in on one run:
loading the AmoCRM configuration raised (`configError`), the call to
`get_leads_from_amocrm` raised (`fetchRaised`), or it returned
`fetched data`. -/
inductive RunInput where
  | configError
  | fetchRaised
  | fetched (data : Option FetchData)
deriving DecidableEq

/-- `daily_report_revenue` (amocrm.py lines 123-183) at a fixed
evaluation date `today`.  Config-loading errors, fetch exceptions, a
`None` fetch result, a dict-shaped result whose `status_code` is not
200, and a body that fails to parse into `_embedded.leads` all return
the empty dict.  A dict-shaped result whose `status_code` IS 200 passes
the guard and then calls `.json()` on a dict, which raises an uncaught
`AttributeError` (`Except.error`).  A real response — whatever its
status code — goes straight to body parsing and, when the body is
well-formed, to aggregation. -/
def daily_report_revenue (today : Nat) : RunInput → Except Unit RevMap
  | .configError => .ok []
  | .fetchRaised => .ok []
  | .fetched none => .ok []
  | .fetched (some (.dictData status_code)) =>
      if status_code ≠ some 200 then .ok [] else .error ()
  | .fetched (some (.response _ body)) =>
      match body with
      | none => .ok []
      | some deals => .ok (aggregate today deals)

/-- Header of the report message built in `main` (amocrm.py line 201),
with the date rendered through `toString`. -/
def report_header (today : Nat) : String :=
  "Отчет по выручке на " ++ toString today ++ ":\n\n"

/-- One per-manager line of the report message (amocrm.py line 203). -/
def manager_line (p : Nat × Int) : String :=
  "Менеджер ID: " ++ toString p.1 ++ ", Выручка: " ++ toString p.2 ++ "\n"

/-- The report text `main` accumulates with `message +=` while
iterating `revenue.items()` in the dict's insertion order
(amocrm.py lines 201-203). -/
def report_message (today : Nat) (revenue : RevMap) : String :=
  revenue.foldl (fun message p => message ++ manager_line p) (report_header today)

/-- The notice `main` sends when `revenue` is empty
(amocrm.py line 208). -/
def error_message : String := "Не удалось получить данные по выручке."

/-- The notice `main` sends from its `except` branch
(amocrm.py line 214). -/
def main_failure_message : String := "Не удалось выполнить главную функцию."

/-- `main` (amocrm.py lines 196-214) as the list of messages handed to
the notification channel on one invocation: the report when the revenue
dict is non-empty, the no-data notice when it is empty, the generic
failure notice when `daily_report_revenue` raised.  `send_to_telegram`
catches every Telegram delivery error internally, so a send never
raises back into `main`. -/
def main_run (today : Nat) (input : RunInput) : List String :=
  match daily_report_revenue today input with
  | .error _ => [main_failure_message]
  | .ok revenue =>
      if revenue ≠ [] then [report_message today revenue] else [error_message]

-- Sanity: the repository's `test_main` scenario, revenue {1: 1000}.
example :
    main_run 2 (.fetched (some (.response 200
        (some [⟨some (2 * 86400 + 100), some 1, some 1000⟩])))) =
      ["Отчет по выручке на 2:\n\nМенеджер ID: 1, Выручка: 1000\n"] := by
  decide

-- Sanity: `test_daily_report_revenue_no_data` and
-- `test_daily_report_revenue_status_code_not_200`.
example : daily_report_revenue 2 (.fetched none) = .ok [] := rfl

example :
    daily_report_revenue 2 (.fetched (some (.dictData (some 400)))) = .ok [] := rfl

/-! ## Dict lemmas -/

theorem getValue_setValue_self (m : RevMap) (k : Nat) (v : Int) :
    getValue (setValue m k v) k = some v := by
  induction m with
  | nil => simp [setValue, getValue]
  | cons p rest ih =>
      obtain ⟨k₀, v₀⟩ := p
      by_cases h : k₀ = k
      · simp [setValue, getValue, h]
      · simp [setValue, getValue, h, ih]

theorem getValue_setValue_ne (m : RevMap) (k k' : Nat) (v : Int)
    (h : k' ≠ k) : getValue (setValue m k v) k' = getValue m k' := by
  have h' : k ≠ k' := h.symm
  induction m with
  | nil => simp [setValue, getValue, h']
  | cons p rest ih =>
      obtain ⟨k₀, v₀⟩ := p
      by_cases hk : k₀ = k
      · subst hk
        simp [setValue, getValue, h']
      · simp [setValue, getValue, hk, ih]

/-! ## Per-deal contribution -/

/-- What one deal contributes to manager `o`'s total at evaluation date
`today`: the (defaulted) price when the deal passes the loop's checks
with this manager, nothing otherwise. -/
def dealContrib (today o : Nat) (d : Deal) : Option Int :=
  match d.created_at, d.responsible_user_id with
  | some ts, some uid =>
      if ts ≠ 0 ∧ uid ≠ 0 ∧ dateOf ts = today ∧ uid = o then
        some (d.price.getD 0)
      else none
  | _, _ => none

/-- All contributions to manager `o` across a deal list, in order. -/
def contribs (today o : Nat) (deals : List Deal) : List Int :=
  deals.filterMap (dealContrib today o)

theorem addDeal_getValue (today : Nat) (m : RevMap) (d : Deal) (o : Nat) :
    getValue (addDeal today m d) o =
      match dealContrib today o d with
      | some p => some ((getValue m o).getD 0 + p)
      | none => getValue m o := by
  rcases d with ⟨c, u, pr⟩
  rcases c with _ | ts <;> rcases u with _ | uid
  · rfl
  · rfl
  · rfl
  · simp only [addDeal, dealContrib]
    by_cases h₁ : ts = 0
    · simp [h₁]
    by_cases h₂ : uid = 0
    · simp [h₁, h₂]
    by_cases h₃ : dateOf ts = today
    · by_cases h₄ : uid = o
      · subst h₄
        by_cases hm : getValue m uid = none
        · simp [h₁, h₂, h₃, hm, getValue_setValue_self]
        · simp [h₁, h₂, h₃, hm, getValue_setValue_self]
      · have ho : o ≠ uid := fun hh => h₄ hh.symm
        by_cases hm : getValue m uid = none
        · simp [h₁, h₂, h₃, h₄, hm, getValue_setValue_ne _ _ _ _ ho]
        · simp [h₁, h₂, h₃, h₄, hm, getValue_setValue_ne _ _ _ _ ho]
    · simp [h₁, h₂, h₃]

theorem getValue_foldl_some (today o : Nat) (deals : List Deal) :
    ∀ (m : RevMap) (v : Int), getValue m o = some v →
      getValue (deals.foldl (addDeal today) m) o =
        some (v + (contribs today o deals).sum) := by
  induction deals with
  | nil => intro m v hm; simpa [contribs] using hm
  | cons d l ih =>
      intro m v hm
      rw [List.foldl_cons]
      rcases hd : dealContrib today o d with _ | p
      · have hstep : getValue (addDeal today m d) o = some v := by
          rw [addDeal_getValue, hd]; exact hm
        rw [ih _ _ hstep]
        simp [contribs, List.filterMap_cons, hd]
      · have hstep : getValue (addDeal today m d) o = some (v + p) := by
          rw [addDeal_getValue, hd, hm]
          rfl
        rw [ih _ _ hstep]
        simp [contribs, List.filterMap_cons, hd, add_assoc]

theorem getValue_foldl_none (today o : Nat) (deals : List Deal) :
    ∀ m : RevMap, getValue m o = none →
      getValue (deals.foldl (addDeal today) m) o =
        if contribs today o deals = [] then none
        else some (contribs today o deals).sum := by
  induction deals with
  | nil => intro m hm; simpa [contribs] using hm
  | cons d l ih =>
      intro m hm
      rw [List.foldl_cons]
      rcases hd : dealContrib today o d with _ | p
      · have hstep : getValue (addDeal today m d) o = none := by
          rw [addDeal_getValue, hd]; exact hm
        rw [ih _ hstep]
        simp [contribs, List.filterMap_cons, hd]
      · have hstep : getValue (addDeal today m d) o = some (0 + p) := by
          rw [addDeal_getValue, hd, hm]
          rfl
        rw [getValue_foldl_some today o l _ _ hstep]
        simp [contribs, List.filterMap_cons, hd, zero_add, add_assoc]

/-- The total `daily_report_revenue` records for manager `o` is exactly
the sum of the per-deal contributions, absent when no deal
contributed. -/
theorem getValue_aggregate (today o : Nat) (deals : List Deal) :
    getValue (aggregate today deals) o =
      if contribs today o deals = [] then none
      else some (contribs today o deals).sum :=
  getValue_foldl_none today o deals [] rfl

/-! ## The claim-side reading of the aggregation invariant -/

/-- The spec's notion of a deal belonging to owner `o` on the
evaluation date: its creation date equals the evaluation date and its
owner id equals `o` (stated over the record fields, with no
truthiness filtering). -/
def claimMatches (today o : Nat) (d : Deal) : Bool :=
  (d.created_at.map dateOf == some today) && (d.responsible_user_id == some o)

/-- The spec's per-owner total: the sum of `price` (missing price as 0)
over exactly the deals of that owner on the evaluation date. -/
def claimTotal (today o : Nat) (deals : List Deal) : Int :=
  ((deals.filter (claimMatches today o)).map (fun d => d.price.getD 0)).sum

theorem dealContrib_eq_claim (today o : Nat) (htoday : 0 < today)
    (ho : o ≠ 0) (d : Deal) :
    dealContrib today o d =
      if claimMatches today o d then some (d.price.getD 0) else none := by
  rcases d with ⟨c, u, pr⟩
  rcases c with _ | ts <;> rcases u with _ | uid
  · rfl
  · rfl
  · simp [dealContrib, claimMatches]
  · simp only [dealContrib, claimMatches, Option.map_some]
    by_cases h₂ : dateOf ts = today
    · by_cases h₃ : uid = o
      · have hts : ts ≠ 0 := by
          intro h0
          rw [h0] at h₂
          simp [dateOf] at h₂
          omega
        subst h₃
        simp [h₂, hts, ho]
      · simp [h₂, h₃]
    · simp [h₂]

theorem contribs_eq_claim (today o : Nat) (htoday : 0 < today)
    (ho : o ≠ 0) (deals : List Deal) :
    contribs today o deals =
      (deals.filter (claimMatches today o)).map (fun d => d.price.getD 0) := by
  induction deals with
  | nil => rfl
  | cons d l ih =>
      rw [contribs, List.filterMap_cons,
        dealContrib_eq_claim today o htoday ho d, List.filter_cons]
      by_cases h : claimMatches today o d
      · simp [h, List.map_cons]
        exact ih
      · simp [h]
        exact ih

theorem contribs_owner_zero (today : Nat) (deals : List Deal) :
    contribs today 0 deals = [] := by
  induction deals with
  | nil => rfl
  | cons d l ih =>
      rw [contribs, List.filterMap_cons]
      have hd : dealContrib today 0 d = none := by
        rcases d with ⟨c, u, pr⟩
        rcases c with _ | ts <;> rcases u with _ | uid <;>
          simp [dealContrib]
        intro h1 h2 h3
        omega
      rw [hd]
      exact ih

/-- C1: at any evaluation date after the epoch day, every owner
appearing in the aggregation result has exactly the sum of the
(default-0) prices of that owner's deals of the evaluation date, and an
owner with no such deal does not appear. -/
theorem aggregate_totals_match_claim (today : Nat) (deals : List Deal)
    (htoday : 0 < today) (o : Nat) :
    (getValue (aggregate today deals) o ≠ none →
        getValue (aggregate today deals) o = some (claimTotal today o deals))
    ∧ (deals.filter (claimMatches today o) = [] →
        getValue (aggregate today deals) o = none) := by
  by_cases ho : o = 0
  · subst ho
    have hz : getValue (aggregate today deals) 0 = none := by
      rw [getValue_aggregate, contribs_owner_zero]
      simp
    exact ⟨fun h => absurd hz h, fun _ => hz⟩
  · rw [getValue_aggregate, contribs_eq_claim today o htoday ho]
    constructor
    · intro h
      by_cases hf : deals.filter (claimMatches today o) = []
      · simp [hf] at h
      · simp only [claimTotal]
        rw [if_neg (by simp [hf])]
    · intro hf
      simp [hf]

/-- Witness for C1 at a concrete run: one deal of day 1 for manager 7
with price 100. -/
theorem aggregate_totals_match_claim_witness :
    getValue (aggregate 1 [⟨some 90000, some 7, some 100⟩]) 7 =
      some (claimTotal 1 7 [⟨some 90000, some 7, some 100⟩]) :=
  (aggregate_totals_match_claim 1 [⟨some 90000, some 7, some 100⟩]
    (by decide) 7).1 (by decide)

/-- C7: aggregation is invariant under any permutation of the input
deal list — the resulting dicts are equal as mappings (equal lookups at
every owner). -/
theorem aggregate_perm_invariant (today : Nat) (l₁ l₂ : List Deal)
    (hperm : l₁.Perm l₂) (o : Nat) :
    getValue (aggregate today l₁) o = getValue (aggregate today l₂) o := by
  have hc : (contribs today o l₁).Perm (contribs today o l₂) :=
    hperm.filterMap (dealContrib today o)
  rw [getValue_aggregate, getValue_aggregate, hc.sum_eq]
  by_cases h : contribs today o l₂ = []
  · rw [h] at hc
    simp [h, List.Perm.eq_nil hc]
  · have h₁ : contribs today o l₁ ≠ [] := by
      intro h0
      rw [h0] at hc
      exact h (List.Perm.nil_eq hc).symm
    rw [if_neg h₁, if_neg h]

/-- Witness for C7: swapping the two deals of the sanity scenario. -/
theorem aggregate_perm_invariant_witness :
    getValue (aggregate 1 [⟨some 90000, some 2, some 5⟩,
                           ⟨some 90000, some 1, some 3⟩]) 1 =
      getValue (aggregate 1 [⟨some 90000, some 1, some 3⟩,
                             ⟨some 90000, some 2, some 5⟩]) 1 :=
  aggregate_perm_invariant 1 _ _
    (List.Perm.swap ⟨some 90000, some 1, some 3⟩ ⟨some 90000, some 2, some 5⟩ []) 1

/-! ## Wall-clock independence -/

theorem addDealClock_fst (clock : Nat → Nat) (m : RevMap) (i : Nat)
    (d : Deal) :
    (addDealClock clock (m, i) d).1 = addDeal (clock i) m d := by
  rcases d with ⟨c, u, pr⟩
  rcases c with _ | ts <;> rcases u with _ | uid
  · rfl
  · rfl
  · rfl
  · simp only [addDealClock, addDeal]
    split_ifs <;> rfl

theorem foldl_addDealClock_const (clock : Nat → Nat) (t : Nat)
    (h : ∀ i, clock i = t) (deals : List Deal) :
    ∀ (m : RevMap) (i : Nat),
      (deals.foldl (addDealClock clock) (m, i)).1 =
        deals.foldl (addDeal t) m := by
  induction deals with
  | nil => intro m i; rfl
  | cons d l ih =>
      intro m i
      rw [List.foldl_cons, List.foldl_cons]
      rcases hx : addDealClock clock (m, i) d with ⟨M, j⟩
      have hM : M = addDeal t m d := by
        have hfst := addDealClock_fst clock m i d
        rw [hx, h i] at hfst
        exact hfst
      rw [← hM]
      exact ih _ _

/-- C8: with every wall-clock read during the run returning the same
calendar date `t`, two runs over the same deal list produce the same
dict — aggregation is a function of the deals and the evaluation date
alone, not of when within that date the job is invoked. -/
theorem aggregate_wallclock_independent (clock₁ clock₂ : Nat → Nat)
    (t : Nat) (h₁ : ∀ i, clock₁ i = t) (h₂ : ∀ i, clock₂ i = t)
    (deals : List Deal) :
    aggregateClock clock₁ deals = aggregateClock clock₂ deals
    ∧ aggregateClock clock₁ deals = aggregate t deals := by
  have e₁ := foldl_addDealClock_const clock₁ t h₁ deals [] 0
  have e₂ := foldl_addDealClock_const clock₂ t h₂ deals [] 0
  unfold aggregateClock aggregate
  rw [e₁, e₂]
  exact ⟨rfl, rfl⟩

/-- Witness for C8: two syntactically different clocks that both read
day 2 throughout one concrete run. -/
theorem aggregate_wallclock_independent_witness :
    aggregateClock (fun _ => 2) [⟨some (2 * 86400 + 60), some 4, some 9⟩] =
      aggregateClock (fun i => i * 0 + 2)
        [⟨some (2 * 86400 + 60), some 4, some 9⟩]
    ∧ aggregateClock (fun _ => 2) [⟨some (2 * 86400 + 60), some 4, some 9⟩] =
      aggregate 2 [⟨some (2 * 86400 + 60), some 4, some 9⟩] :=
  aggregate_wallclock_independent (fun _ => 2) (fun i => i * 0 + 2) 2
    (fun _ => rfl) (fun i => by simp)
    [⟨some (2 * 86400 + 60), some 4, some 9⟩]

/-! ## Falsy fields -/

/-- C9: a deal whose `created_at` or `responsible_user_id` is present
but equal to 0 is skipped exactly like one with the field absent — it
changes nothing in the dict, removing it from the list changes nothing,
and manager id 0 never appears in any aggregation result. -/
theorem falsy_fields_skipped (today : Nat) (d : Deal)
    (h : d.created_at = some 0 ∨ d.responsible_user_id = some 0) :
    (∀ m : RevMap, addDeal today m d = m)
    ∧ (∀ pre post : List Deal,
        aggregate today (pre ++ d :: post) = aggregate today (pre ++ post))
    ∧ (∀ deals : List Deal, getValue (aggregate today deals) 0 = none) := by
  have hskip : ∀ m : RevMap, addDeal today m d = m := by
    intro m
    unfold addDeal
    rcases h with h | h
    · rw [h]
      rcases hu : d.responsible_user_id with _ | uid
      · rfl
      · simp
    · rw [h]
      rcases hc : d.created_at with _ | ts
      · rfl
      · simp
  refine ⟨hskip, ?_, ?_⟩
  · intro pre post
    unfold aggregate
    rw [List.foldl_append, List.foldl_append, List.foldl_cons, hskip]
  · intro deals
    rw [getValue_aggregate, contribs_owner_zero]
    simp

/-- Witness for C9: inserting a deal with a zero timestamp changes
nothing, at a concrete list. -/
theorem falsy_fields_skipped_witness :
    aggregate 1 ([⟨some 90000, some 7, some 100⟩] ++
        (⟨some 0, some 3, some 5⟩ : Deal) :: []) =
      aggregate 1 ([⟨some 90000, some 7, some 100⟩] ++ []) :=
  (falsy_fields_skipped 1 ⟨some 0, some 3, some 5⟩ (Or.inl rfl)).2.1
    [⟨some 90000, some 7, some 100⟩] []

/-! ## Prices: defaulting and sign -/

/-- C2 counterexample: a deal of the evaluation date whose `price` is
-5 contributes -5, not 0 — the owner's resulting total is negative. -/
theorem negative_price_contributes_negative :
    getValue (aggregate 1 [⟨some 90000, some 1, some (-5)⟩]) 1 = some (-5)
    ∧ ¬(0 : Int) ≤ -5 := by decide

/-- C2 amended: a deal contributes exactly `price` when the field is
present — whatever its sign — and 0 only when the field is absent:
replacing each deal's price by `price.getD 0` never changes the
result. -/
theorem contribution_is_defaulted_price (today : Nat) :
    (∀ (m : RevMap) (d : Deal),
        addDeal today m d =
          addDeal today m
            ⟨d.created_at, d.responsible_user_id, some (d.price.getD 0)⟩)
    ∧ (∀ deals : List Deal,
        aggregate today deals =
          aggregate today (deals.map (fun d =>
            ⟨d.created_at, d.responsible_user_id, some (d.price.getD 0)⟩))) := by
  have hstep : ∀ (m : RevMap) (d : Deal),
      addDeal today m d =
        addDeal today m
          ⟨d.created_at, d.responsible_user_id, some (d.price.getD 0)⟩ := by
    intro m d
    rcases d with ⟨c, u, pr⟩
    rcases c with _ | ts <;> rcases u with _ | uid <;> rcases pr with _ | v <;>
      rfl
  refine ⟨hstep, ?_⟩
  have hfold : ∀ (deals : List Deal) (m : RevMap),
      deals.foldl (addDeal today) m =
        (deals.map (fun d =>
          (⟨d.created_at, d.responsible_user_id, some (d.price.getD 0)⟩ : Deal))).foldl
            (addDeal today) m := by
    intro deals
    induction deals with
    | nil => intro m; rfl
    | cons d l ih =>
        intro m
        rw [List.map_cons, List.foldl_cons, List.foldl_cons, ← hstep m d]
        exact ih _
  intro deals
  exact hfold deals []

/-! ## Report formatting -/

/-- The per-manager lines of the report, one per entry, in the dict's
iteration order. -/
def report_lines (revenue : RevMap) : String :=
  match revenue with
  | [] => ""
  | p :: rest => manager_line p ++ report_lines rest

theorem foldl_append_lines (revenue : List (Nat × Int)) :
    ∀ s : String,
      revenue.foldl (fun message p => message ++ manager_line p) s =
        s ++ report_lines revenue := by
  induction revenue with
  | nil => intro s; simp [report_lines, String.append_empty]
  | cons p rest ih =>
      intro s
      rw [List.foldl_cons, ih, report_lines, String.append_assoc]

/-- C3 counterexample: two deal orders that build the same mapping
(manager 1 to 3 and manager 2 to 5) with opposite insertion orders; the
formatted texts differ, and the first lists manager 2 before manager 1,
so the lines are not sorted by owner id ascending. -/
theorem report_depends_on_insertion_order :
    aggregate 1 [⟨some 90000, some 2, some 5⟩, ⟨some 90000, some 1, some 3⟩]
      = [(2, 5), (1, 3)]
    ∧ aggregate 1 [⟨some 90000, some 1, some 3⟩, ⟨some 90000, some 2, some 5⟩]
      = [(1, 3), (2, 5)]
    ∧ ([((2 : Nat), (5 : Int)), (1, 3)] : RevMap).Perm [(1, 3), (2, 5)]
    ∧ report_message 1 [((2 : Nat), (5 : Int)), (1, 3)]
      ≠ report_message 1 [(1, 3), (2, 5)] := by
  refine ⟨by decide, by decide, ?_, by decide⟩
  exact List.Perm.swap (1, 3) (2, 5) []

/-- C3 amended: the report is the date header followed by exactly one
line per manager, in the dict's insertion order (the order of each
manager's first contributing deal); the text is a function of that
ordered dict, but dicts equal as mappings with different insertion
orders can format differently. -/
theorem report_message_structure (today : Nat) (revenue : RevMap) :
    report_message today revenue =
      report_header today ++ report_lines revenue := by
  unfold report_message
  exact foldl_append_lines revenue (report_header today)

/-! ## The orchestrator -/

/-- C4: every run of `main` hands exactly one message to the
notification channel — the report, the no-data notice, or the failure
notice — on every control-flow path of the model, the exception path
included. -/
theorem exactly_one_notification (today : Nat) (input : RunInput) :
    (main_run today input).length = 1 := by
  unfold main_run
  rcases h : daily_report_revenue today input with e | revenue
  · rfl
  · by_cases hr : revenue = []
    · simp [hr]
    · simp [hr]

/-- C5 counterexample: a response with HTTP status 400 whose body
nonetheless parses into one deal of the evaluation date is aggregated
normally — the report is sent, not the fallback failure message. -/
theorem nonsuccess_status_still_aggregated :
    daily_report_revenue 1
        (.fetched (some (.response 400 (some [⟨some 90000, some 7, some 100⟩]))))
      = .ok [(7, 100)]
    ∧ main_run 1
        (.fetched (some (.response 400 (some [⟨some 90000, some 7, some 100⟩]))))
      = [report_message 1 [(7, 100)]]
    ∧ main_run 1
        (.fetched (some (.response 400 (some [⟨some 90000, some 7, some 100⟩]))))
      ≠ [error_message] := by
  refine ⟨rfl, rfl, ?_⟩
  decide

/-- C5 amended: the three fetch outcomes the code actually rejects — a
`None` result, a dict-shaped test double whose `status_code` is not
200, and a response whose body lacks the `_embedded.leads` structure —
all yield the empty dict and the fallback failure message, with no deal
aggregated; the HTTP status of a real response is never inspected. -/
theorem rejected_fetch_yields_empty (today : Nat) (input : RunInput)
    (h : input = .fetched none
      ∨ (∃ sc, sc ≠ some 200 ∧ input = .fetched (some (.dictData sc)))
      ∨ (∃ st, input = .fetched (some (.response st none)))) :
    daily_report_revenue today input = .ok []
    ∧ main_run today input = [error_message] := by
  rcases h with h | ⟨sc, hsc, h⟩ | ⟨st, h⟩ <;> subst h
  · exact ⟨rfl, rfl⟩
  · constructor
    · simp [daily_report_revenue, hsc]
    · simp [main_run, daily_report_revenue, hsc]
  · exact ⟨rfl, rfl⟩

/-- Witness for C5 (amended): the `None` fetch result. -/
theorem rejected_fetch_yields_empty_witness :
    daily_report_revenue 3 (.fetched none) = .ok []
    ∧ main_run 3 (.fetched none) = [error_message] :=
  rejected_fetch_yields_empty 3 (.fetched none) (Or.inl rfl)

/-- C6 counterexample: the notice sent when the fetch succeeds with an
empty deal list is the very same text as the notice sent when the fetch
itself fails — not a distinct one. -/
theorem no_data_notice_equals_failure_notice :
    main_run 0 (.fetched (some (.response 200 (some [])))) =
      main_run 0 (.fetched none)
    ∧ main_run 0 (.fetched none) = [error_message] :=
  ⟨rfl, rfl⟩

/-- C6 amended: when the fetch succeeds but aggregation is empty the
job sends "Не удалось получить данные по выручке." — the same text the
fetch-failure path sends; the only distinct text is the exception-path
notice "Не удалось выполнить главную функцию.". -/
theorem empty_aggregation_notice (today : Nat) (deals : List Deal)
    (h : aggregate today deals = []) :
    main_run today (.fetched (some (.response 200 (some deals))))
      = [error_message]
    ∧ main_run today (.fetched none) = [error_message]
    ∧ error_message ≠ main_failure_message := by
  refine ⟨?_, rfl, by decide⟩
  simp [main_run, daily_report_revenue, h]

/-- Witness for C6 (amended): the empty deal list. -/
theorem empty_aggregation_notice_witness :
    main_run 0 (.fetched (some (.response 200 (some [])))) = [error_message]
    ∧ main_run 0 (.fetched none) = [error_message]
    ∧ error_message ≠ main_failure_message :=
  empty_aggregation_notice 0 [] rfl

/-! ## The fetcher -/

/-- C10: `get_leads_from_amocrm` is total over every classified request
exception and every received response: each of the four caught request
exceptions yields `None`, and any response is returned unchanged, its
status code never examined. -/
theorem get_leads_never_raises :
    (∀ r : FetchData, get_leads_from_amocrm (.success r) = some r)
    ∧ (∀ e : ReqError, get_leads_from_amocrm (.failure e) = none) :=
  ⟨fun _ => rfl, fun _ => rfl⟩
